import Mathlib

/-!
Shallow embedding of the core of the todo application (app/models.py,
app/repository.py, app/service.py): the task entity, the in-memory
repository keyed by an auto-incrementing id, and the service layer that
validates input and coordinates reads and writes.

Modelling conventions:
 - Python strings are Lean `String`; `str.strip()` is `pyStrip`.
 - The creation timestamp `datetime.now()` is abstracted as a `Nat` clock
   value supplied to `add_task` by its caller.
 - The repository dictionary is an insertion-ordered association list with
   Python dict semantics: assignment replaces the entry in place when the
   key is present, otherwise appends; deletion removes the entry.
 - Python exceptions become `Except AppError`; since Python objects are
   references, a service operation that mutates a fetched task mutates the
   stored object, so every service operation returns the repository state
   it leaves behind together with its result or error.  In-place mutation
   of a fetched task is modelled by `writeThrough`, which stores the
   updated value back under its id.
-/

namespace Todo

/-- Task completion status (models.py, `TaskStatus`). -/
inductive TaskStatus where
| incomplete
| complete
deriving DecidableEq, Repr

/-- Task entity (models.py, `Task`): immutable id and creation timestamp,
mutable title, description and status. -/
structure Task where
  id : Nat
  title : String
  description : String
  status : TaskStatus
  created_at : Nat
deriving DecidableEq, Repr

/-- models.py `Task.update_title`. -/
def Task.update_title (t : Task) (new_title : String) : Task :=
  { t with title := new_title }

/-- models.py `Task.update_description`. -/
def Task.update_description (t : Task) (new_description : String) : Task :=
  { t with description := new_description }

/-- models.py `Task.mark_complete`. -/
def Task.mark_complete (t : Task) : Task :=
  { t with status := TaskStatus.complete }

/-- models.py `Task.mark_incomplete`. -/
def Task.mark_incomplete (t : Task) : Task :=
  { t with status := TaskStatus.incomplete }

/-- models.py `Task.is_complete`. -/
def Task.is_complete (t : Task) : Bool :=
  t.status == TaskStatus.complete

/-- Python `str.strip()` on the character list: drop leading and trailing
whitespace. -/
def stripChars (l : List Char) : List Char :=
  ((l.dropWhile Char.isWhitespace).reverse.dropWhile Char.isWhitespace).reverse

/-- Python `str.strip()`. -/
def pyStrip (s : String) : String :=
  String.mk (stripChars s.data)

/-- Python dict assignment `d[k] = v`: replace the entry in place when the
key is present, otherwise append. -/
def dictInsert (k : Nat) (v : Task) : List (Nat × Task) → List (Nat × Task)
| [] => [(k, v)]
| (k', v') :: rest =>
    if k' = k then (k, v) :: rest else (k', v') :: dictInsert k v rest

/-- Python dict lookup `d.get(k)`. -/
def dictGet (k : Nat) : List (Nat × Task) → Option Task
| [] => none
| (k', v') :: rest => if k' = k then some v' else dictGet k rest

/-- Python `del d[k]`: remove the entry with key `k` (keys are unique in a
dict, so removing the first occurrence). -/
def dictErase (k : Nat) : List (Nat × Task) → List (Nat × Task)
| [] => []
| (k', v') :: rest => if k' = k then rest else (k', v') :: dictErase k rest

/-- repository.py `TaskRepository`: the dict `_tasks` and counter `_next_id`. -/
structure TaskRepository where
  tasks : List (Nat × Task)
  next_id : Nat
deriving DecidableEq, Repr

/-- repository.py `TaskRepository.__init__`: empty dict, counter 1. -/
def TaskRepository.empty : TaskRepository :=
  { tasks := [], next_id := 1 }

/-- repository.py `TaskRepository.add_task`: store under `task.id`, advance
the counter to `max(next_id, task.id + 1)`, return the task. -/
def TaskRepository.add_task (r : TaskRepository) (task : Task) :
    TaskRepository × Task :=
  ({ tasks := dictInsert task.id task r.tasks,
     next_id := max r.next_id (task.id + 1) }, task)

/-- repository.py `TaskRepository.get_task`. -/
def TaskRepository.get_task (r : TaskRepository) (task_id : Nat) : Option Task :=
  dictGet task_id r.tasks

/-- repository.py `TaskRepository.get_all_tasks`: all stored tasks sorted
ascending by id (Python `sorted(values, key=id)`, a stable merge sort). -/
def TaskRepository.get_all_tasks (r : TaskRepository) : List Task :=
  List.mergeSort (r.tasks.map Prod.snd) (fun a b => decide (a.id ≤ b.id))

/-- repository.py `TaskRepository.task_exists`. -/
def TaskRepository.task_exists (r : TaskRepository) (task_id : Nat) : Bool :=
  (dictGet task_id r.tasks).isSome

/-- repository.py `TaskRepository.delete_task`: delete if present and report
whether a removal occurred. -/
def TaskRepository.delete_task (r : TaskRepository) (task_id : Nat) :
    TaskRepository × Bool :=
  if r.task_exists task_id then
    ({ r with tasks := dictErase task_id r.tasks }, true)
  else (r, false)

/-- repository.py `TaskRepository.get_next_id`: a pure read of the counter. -/
def TaskRepository.get_next_id (r : TaskRepository) : Nat :=
  r.next_id

/-- repository.py `TaskRepository.clear`. -/
def TaskRepository.clear (r : TaskRepository) : TaskRepository :=
  TaskRepository.empty

/-- Python aliasing: a task fetched from the store is a reference to the
stored object, so mutating it in place mutates the store.  The embedding
realises each in-place mutation by writing the updated value back under its
id. -/
def TaskRepository.writeThrough (r : TaskRepository) (t : Task) : TaskRepository :=
  { r with tasks := dictInsert t.id t r.tasks }

/-- exceptions.py: the two recoverable failure kinds. -/
inductive AppError where
| validation (msg : String)
| notFound (msg : String)
deriving DecidableEq, Repr

instance exceptDecEq {ε α : Type} [DecidableEq ε] [DecidableEq α] :
    DecidableEq (Except ε α) := fun a b =>
  match a, b with
  | Except.error e1, Except.error e2 =>
    match decEq e1 e2 with
    | isTrue h => isTrue (by rw [h])
    | isFalse h => isFalse (fun hc => h (Except.error.inj hc))
  | Except.error _, Except.ok _ => isFalse (fun hc => Except.noConfusion hc)
  | Except.ok _, Except.error _ => isFalse (fun hc => Except.noConfusion hc)
  | Except.ok a1, Except.ok a2 =>
    match decEq a1 a2 with
    | isTrue h => isTrue (by rw [h])
    | isFalse h => isFalse (fun hc => h (Except.ok.inj hc))

namespace TaskService

/-- service.py `TaskService.validate_title`. -/
def validate_title (title : String) : Except AppError String :=
  if title.isEmpty || (pyStrip title).isEmpty then
    Except.error (AppError.validation "Task title cannot be empty")
  else if 200 < (pyStrip title).length then
    Except.error (AppError.validation "Task title exceeds 200 characters")
  else
    Except.ok (pyStrip title)

/-- service.py `TaskService.validate_description`. -/
def validate_description (description : String) : Except AppError String :=
  if description.isEmpty then Except.ok ""
  else if 500 < (pyStrip description).length then
    Except.error (AppError.validation "Description exceeds 500 characters")
  else
    Except.ok (pyStrip description)

/-- service.py `TaskService.validate_task_id`. -/
def validate_task_id (r : TaskRepository) (task_id : Nat) : Except AppError Unit :=
  if r.task_exists task_id then Except.ok ()
  else Except.error (AppError.notFound ("Task ID " ++ toString task_id ++ " not found"))

/-- service.py `TaskService.add_task`: validate both fields, build the task
with the store's next id, default status and the current timestamp, insert
it. -/
def add_task (r : TaskRepository) (title : String) (description : String)
    (now : Nat) : TaskRepository × Except AppError Task :=
  match validate_title title with
  | Except.error e => (r, Except.error e)
  | Except.ok validated_title =>
    match validate_description description with
    | Except.error e => (r, Except.error e)
    | Except.ok validated_description =>
      let task : Task :=
        { id := r.get_next_id, title := validated_title,
          description := validated_description,
          status := TaskStatus.incomplete, created_at := now }
      let p := r.add_task task
      (p.1, Except.ok p.2)

/-- service.py `TaskService.get_all_tasks`: passthrough to the repository. -/
def get_all_tasks (r : TaskRepository) : List Task :=
  r.get_all_tasks

/-- service.py `TaskService.get_task`: `validate_task_id` then fetch.  The
`none` branch is unreachable once validation has passed. -/
def get_task (r : TaskRepository) (task_id : Nat) :
    TaskRepository × Except AppError Task :=
  match validate_task_id r task_id with
  | Except.error e => (r, Except.error e)
  | Except.ok _ =>
    match r.get_task task_id with
    | some task => (r, Except.ok task)
    | none =>
        (r, Except.error (AppError.notFound
          ("Task ID " ++ toString task_id ++ " not found")))

/-- Second half of service.py `TaskService.update_task`: the
`if new_description is not None` block, entered with the repository state
and the (possibly already title-mutated) task left by the title block. -/
def update_task_desc_phase (r : TaskRepository) (task : Task) (was_changed : Bool)
    (new_description : Option String) :
    TaskRepository × Except AppError (Task × Bool) :=
  match new_description with
  | none => (r, Except.ok (task, was_changed))
  | some nd =>
    match validate_description nd with
    | Except.error e => (r, Except.error e)
    | Except.ok validated_description =>
      if validated_description ≠ task.description then
        let task2 := task.update_description validated_description
        (r.writeThrough task2, Except.ok (task2, true))
      else (r, Except.ok (task, was_changed))

/-- service.py `TaskService.update_task`: `validate_task_id`, fetch, then for
each provided field validate, compare with the current value, and apply in
place only when different.  The title block runs first; an exception raised
while handling the description leaves any title mutation committed. -/
def update_task (r : TaskRepository) (task_id : Nat)
    (new_title : Option String) (new_description : Option String) :
    TaskRepository × Except AppError (Task × Bool) :=
  match validate_task_id r task_id with
  | Except.error e => (r, Except.error e)
  | Except.ok _ =>
    match r.get_task task_id with
    | none =>
        (r, Except.error (AppError.notFound
          ("Task ID " ++ toString task_id ++ " not found")))
    | some task =>
      match new_title with
      | none => update_task_desc_phase r task false new_description
      | some nt =>
        match validate_title nt with
        | Except.error e => (r, Except.error e)
        | Except.ok validated_title =>
          if validated_title ≠ task.title then
            let task1 := task.update_title validated_title
            update_task_desc_phase (r.writeThrough task1) task1 true new_description
          else
            update_task_desc_phase r task false new_description

/-- service.py `TaskService.delete_task`: `validate_task_id`, fetch, remove
from the store, return the removed task. -/
def delete_task (r : TaskRepository) (task_id : Nat) :
    TaskRepository × Except AppError Task :=
  match validate_task_id r task_id with
  | Except.error e => (r, Except.error e)
  | Except.ok _ =>
    match r.get_task task_id with
    | none =>
        (r, Except.error (AppError.notFound
          ("Task ID " ++ toString task_id ++ " not found")))
    | some task => ((r.delete_task task_id).1, Except.ok task)

/-- service.py `TaskService.mark_complete`: reject when already complete,
otherwise transition in place. -/
def mark_complete (r : TaskRepository) (task_id : Nat) :
    TaskRepository × Except AppError Task :=
  match validate_task_id r task_id with
  | Except.error e => (r, Except.error e)
  | Except.ok _ =>
    match r.get_task task_id with
    | none =>
        (r, Except.error (AppError.notFound
          ("Task ID " ++ toString task_id ++ " not found")))
    | some task =>
      if task.is_complete then
        (r, Except.error (AppError.validation "Task is already complete"))
      else
        let task1 := task.mark_complete
        (r.writeThrough task1, Except.ok task1)

/-- service.py `TaskService.mark_incomplete`: reject when already incomplete,
otherwise transition in place. -/
def mark_incomplete (r : TaskRepository) (task_id : Nat) :
    TaskRepository × Except AppError Task :=
  match validate_task_id r task_id with
  | Except.error e => (r, Except.error e)
  | Except.ok _ =>
    match r.get_task task_id with
    | none =>
        (r, Except.error (AppError.notFound
          ("Task ID " ++ toString task_id ++ " not found")))
    | some task =>
      if !task.is_complete then
        (r, Except.error (AppError.validation "Task is already incomplete"))
      else
        let task1 := task.mark_incomplete
        (r.writeThrough task1, Except.ok task1)

/-- service.py `TaskService.get_statistics`: derived from a full listing. -/
def get_statistics (r : TaskRepository) : Nat × Nat × Nat :=
  let tasks := get_all_tasks r
  let total := tasks.length
  let completed := tasks.countP (fun t => t.is_complete)
  let remaining := total - completed
  (total, completed, remaining)

end TaskService

/-- One service-level operation, as invocable from the front end. -/
inductive Op where
| add (title description : String) (now : Nat)
| get (task_id : Nat)
| listAll
| update (task_id : Nat) (new_title new_description : Option String)
| delete (task_id : Nat)
| markComplete (task_id : Nat)
| markIncomplete (task_id : Nat)
| statistics

/-- The repository state a service operation leaves behind (reads leave the
state unchanged). -/
def applyOp (r : TaskRepository) : Op → TaskRepository
| Op.add title description now => (TaskService.add_task r title description now).1
| Op.get _ => r
| Op.listAll => r
| Op.update task_id nt nd => (TaskService.update_task r task_id nt nd).1
| Op.delete task_id => (TaskService.delete_task r task_id).1
| Op.markComplete task_id => (TaskService.mark_complete r task_id).1
| Op.markIncomplete task_id => (TaskService.mark_incomplete r task_id).1
| Op.statistics => r

/-- Run a sequence of service operations. -/
def runOps (r : TaskRepository) (ops : List Op) : TaskRepository :=
  ops.foldl applyOp r

/-- Repository states reachable from a fresh store by service operations. -/
def Reachable (r : TaskRepository) : Prop :=
  ∃ ops : List Op, r = runOps TaskRepository.empty ops

/-- Run a sequence of `add` calls, collecting every result. -/
def runAdds (r : TaskRepository) :
    List (String × String × Nat) → TaskRepository × List (Except AppError Task)
| [] => (r, [])
| input :: rest =>
  let p := TaskService.add_task r input.1 input.2.1 input.2.2
  let q := runAdds p.1 rest
  (q.1, p.2 :: q.2)

/-- Store invariant: every entry is keyed by its task's id, every key is
below the counter, and keys are unique. -/
def RepoInv (r : TaskRepository) : Prop :=
  (∀ p ∈ r.tasks, p.2.id = p.1 ∧ p.1 < r.next_id) ∧
  (r.tasks.map Prod.fst).Nodup

/-! Dictionary lemmas. -/

theorem dictGet_dictInsert_self (k : Nat) (v : Task) (l : List (Nat × Task)) :
    dictGet k (dictInsert k v l) = some v := by
  induction l with
  | nil => simp [dictInsert, dictGet]
  | cons p rest ih =>
    obtain ⟨k', v'⟩ := p
    by_cases h : k' = k
    · simp [dictInsert, dictGet, h]
    · simp [dictInsert, dictGet, h, ih]

theorem dictGet_dictInsert_ne (k k2 : Nat) (v : Task) (l : List (Nat × Task))
    (h : k ≠ k2) : dictGet k2 (dictInsert k v l) = dictGet k2 l := by
  induction l with
  | nil => simp [dictInsert, dictGet, h]
  | cons p rest ih =>
    obtain ⟨k', v'⟩ := p
    by_cases hk : k' = k
    · subst hk; simp [dictInsert, dictGet, h, ih]
    · simp [dictInsert, dictGet, hk, ih]

theorem dictGet_mem (k : Nat) (l : List (Nat × Task)) (v : Task)
    (h : dictGet k l = some v) : (k, v) ∈ l := by
  induction l with
  | nil => simp [dictGet] at h
  | cons p rest ih =>
    obtain ⟨k', v'⟩ := p
    by_cases hk : k' = k
    · subst hk
      simp [dictGet] at h
      simp [h]
    · simp [dictGet, hk] at h
      exact List.mem_cons_of_mem _ (ih h)

theorem mem_dictInsert (k : Nat) (v : Task) (l : List (Nat × Task)) (p : Nat × Task)
    (h : p ∈ dictInsert k v l) : p = (k, v) ∨ p ∈ l := by
  induction l with
  | nil => simp [dictInsert] at h; simp [h]
  | cons q rest ih =>
    obtain ⟨k', v'⟩ := q
    by_cases hk : k' = k
    · subst hk
      simp [dictInsert] at h
      rcases h with h | h
      · left; simp [h]
      · right; exact List.mem_cons_of_mem _ h
    · simp [dictInsert, hk] at h
      rcases h with h | h
      · right; simp [h]
      · rcases ih h with h1 | h1
        · left; exact h1
        · right; exact List.mem_cons_of_mem _ h1

theorem keys_dictInsert (k : Nat) (v : Task) (l : List (Nat × Task)) :
    (dictInsert k v l).map Prod.fst =
      if k ∈ l.map Prod.fst then l.map Prod.fst else l.map Prod.fst ++ [k] := by
  induction l with
  | nil => simp [dictInsert]
  | cons q rest ih =>
    obtain ⟨k', v'⟩ := q
    by_cases hk : k' = k
    · subst hk; simp [dictInsert]
    · have hne : k ≠ k' := Ne.symm hk
      simp [dictInsert, hk, ih, hne]
      by_cases hmem : k ∈ rest.map Prod.fst <;> simp [hmem, hne]

theorem dictErase_sublist (k : Nat) (l : List (Nat × Task)) :
    (dictErase k l).Sublist l := by
  induction l with
  | nil => simp [dictErase]
  | cons q rest ih =>
    obtain ⟨k', v'⟩ := q
    by_cases hk : k' = k
    · simp [dictErase, hk]
    · simpa [dictErase, hk] using ih

theorem dictGet_dictErase_ne (k k2 : Nat) (l : List (Nat × Task)) (h : k ≠ k2) :
    dictGet k2 (dictErase k l) = dictGet k2 l := by
  induction l with
  | nil => simp [dictErase]
  | cons q rest ih =>
    obtain ⟨k', v'⟩ := q
    by_cases hk : k' = k
    · subst hk; simp [dictErase, dictGet, h, ih]
    · simp [dictErase, dictGet, hk, ih]

theorem dictGet_none_of_not_mem (k : Nat) (l : List (Nat × Task))
    (h : k ∉ l.map Prod.fst) : dictGet k l = none := by
  induction l with
  | nil => simp [dictGet]
  | cons q rest ih =>
    obtain ⟨k', v'⟩ := q
    rw [List.map_cons, List.mem_cons] at h
    push_neg at h
    simp [dictGet, Ne.symm h.1, ih h.2]

theorem dictGet_dictErase_self (k : Nat) (l : List (Nat × Task))
    (h : (l.map Prod.fst).Nodup) : dictGet k (dictErase k l) = none := by
  induction l with
  | nil => simp [dictErase, dictGet]
  | cons q rest ih =>
    obtain ⟨k', v'⟩ := q
    rw [List.map_cons, List.nodup_cons] at h
    by_cases hk : k' = k
    · subst hk
      simp only [dictErase, if_pos rfl]
      exact dictGet_none_of_not_mem _ _ h.1
    · simp [dictErase, dictGet, hk]
      exact ih h.2

/-! Counter lemmas: which operations change `next_id`, and how. -/

theorem writeThrough_next_id (r : TaskRepository) (t : Task) :
    (r.writeThrough t).next_id = r.next_id := rfl

theorem update_task_desc_phase_next_id (r : TaskRepository) (task : Task)
    (b : Bool) (nd : Option String) :
    (TaskService.update_task_desc_phase r task b nd).1.next_id = r.next_id := by
  unfold TaskService.update_task_desc_phase
  repeat' split
  all_goals rfl

theorem update_task_next_id (r : TaskRepository) (task_id : Nat)
    (nt nd : Option String) :
    (TaskService.update_task r task_id nt nd).1.next_id = r.next_id := by
  unfold TaskService.update_task
  repeat' split
  all_goals first
  | rfl
  | (rw [update_task_desc_phase_next_id]; try rfl)

theorem delete_task_next_id (r : TaskRepository) (task_id : Nat) :
    (TaskService.delete_task r task_id).1.next_id = r.next_id := by
  unfold TaskService.delete_task TaskRepository.delete_task
  repeat' split
  all_goals rfl

theorem mark_complete_next_id (r : TaskRepository) (task_id : Nat) :
    (TaskService.mark_complete r task_id).1.next_id = r.next_id := by
  unfold TaskService.mark_complete
  repeat' split
  all_goals rfl

theorem mark_incomplete_next_id (r : TaskRepository) (task_id : Nat) :
    (TaskService.mark_incomplete r task_id).1.next_id = r.next_id := by
  unfold TaskService.mark_incomplete
  repeat' split
  all_goals rfl

theorem add_task_next_id_mono (r : TaskRepository) (t d : String) (now : Nat) :
    r.next_id ≤ (TaskService.add_task r t d now).1.next_id := by
  unfold TaskService.add_task
  repeat' split
  all_goals first
  | exact le_refl _
  | exact Nat.le_max_left _ _

theorem applyOp_next_id_mono (r : TaskRepository) (op : Op) :
    r.next_id ≤ (applyOp r op).next_id := by
  cases op with
  | add t d now => exact add_task_next_id_mono r t d now
  | update task_id nt nd => exact le_of_eq (update_task_next_id r task_id nt nd).symm
  | delete task_id => exact le_of_eq (delete_task_next_id r task_id).symm
  | markComplete task_id => exact le_of_eq (mark_complete_next_id r task_id).symm
  | markIncomplete task_id => exact le_of_eq (mark_incomplete_next_id r task_id).symm
  | get task_id => exact le_refl _
  | listAll => exact le_refl _
  | statistics => exact le_refl _

theorem runOps_next_id_mono (r : TaskRepository) (ops : List Op) :
    r.next_id ≤ (runOps r ops).next_id := by
  induction ops generalizing r with
  | nil => exact le_refl _
  | cons op rest ih =>
    exact le_trans (applyOp_next_id_mono r op)
      (by simpa [runOps] using ih (applyOp r op))

/-- A successful `add` hands out exactly the current counter value and bumps
the counter by one. -/
theorem add_task_ok (r : TaskRepository) (t d : String) (now : Nat) (task : Task)
    (h : (TaskService.add_task r t d now).2 = Except.ok task) :
    task.id = r.next_id ∧
    (TaskService.add_task r t d now).1.next_id = r.next_id + 1 := by
  unfold TaskService.add_task at h ⊢
  cases ht : TaskService.validate_title t with
  | error e => rw [ht] at h; simp at h
  | ok vt =>
    cases hd : TaskService.validate_description d with
    | error e => rw [ht, hd] at h; simp at h
    | ok vd =>
      rw [ht, hd] at h
      have h2 : ({ id := r.get_next_id, title := vt, description := vd,
                   status := TaskStatus.incomplete, created_at := now } : Task) = task :=
        Except.ok.inj h
      constructor
      · rw [← h2]; rfl
      · show max r.next_id (r.next_id + 1) = r.next_id + 1
        exact Nat.max_eq_right (Nat.le_succ _)

/-! The store invariant holds in every reachable state. -/

theorem dictInsert_keys_nodup (k : Nat) (v : Task) (l : List (Nat × Task))
    (h : (l.map Prod.fst).Nodup) : ((dictInsert k v l).map Prod.fst).Nodup := by
  rw [keys_dictInsert]
  by_cases hmem : k ∈ l.map Prod.fst
  · simpa [hmem] using h
  · rw [if_neg hmem]
    refine List.Nodup.append h (List.nodup_singleton _) ?_
    intro a ha hb
    rw [List.mem_singleton] at hb
    subst hb
    exact hmem ha

theorem writeThrough_inv (r : TaskRepository) (t : Task) (h : RepoInv r)
    (ht : t.id < r.next_id) : RepoInv (r.writeThrough t) := by
  constructor
  · intro p hp
    rcases mem_dictInsert _ _ _ _ hp with h1 | h1
    · subst h1
      exact ⟨rfl, ht⟩
    · exact h.1 p h1
  · exact dictInsert_keys_nodup _ _ _ h.2

theorem repoInv_empty : RepoInv TaskRepository.empty := by
  constructor
  · intro p hp
    simp [TaskRepository.empty] at hp
  · simp [TaskRepository.empty]

theorem add_task_inv (r : TaskRepository) (t d : String) (now : Nat)
    (h : RepoInv r) : RepoInv (TaskService.add_task r t d now).1 := by
  unfold TaskService.add_task
  cases ht : TaskService.validate_title t with
  | error e => exact h
  | ok vt =>
    cases hd : TaskService.validate_description d with
    | error e => exact h
    | ok vd =>
      constructor
      · intro p hp
        rcases mem_dictInsert _ _ _ _ hp with h1 | h1
        · subst h1
          refine ⟨rfl, ?_⟩
          show r.next_id < max r.next_id (r.next_id + 1)
          exact Nat.lt_of_lt_of_le (Nat.lt_succ_self _) (Nat.le_max_right _ _)
        · obtain ⟨h2, h3⟩ := h.1 p h1
          refine ⟨h2, ?_⟩
          show p.1 < max r.next_id (r.next_id + 1)
          exact Nat.lt_of_lt_of_le h3 (Nat.le_max_left _ _)
      · exact dictInsert_keys_nodup _ _ _ h.2

theorem update_task_desc_phase_inv (r : TaskRepository) (task : Task) (b : Bool)
    (nd : Option String) (h : RepoInv r) (hid : task.id < r.next_id) :
    RepoInv (TaskService.update_task_desc_phase r task b nd).1 := by
  unfold TaskService.update_task_desc_phase
  repeat' split
  all_goals first
  | exact h
  | exact writeThrough_inv _ _ h hid

theorem update_task_inv (r : TaskRepository) (task_id : Nat) (nt nd : Option String)
    (h : RepoInv r) : RepoInv (TaskService.update_task r task_id nt nd).1 := by
  unfold TaskService.update_task
  split
  · exact h
  · split
    · exact h
    · rename_i task heq
      have hm := h.1 _ (dictGet_mem _ _ _ heq)
      have hid : task.id < r.next_id := by
        have h1 : task.id = task_id := hm.1
        have h2 : task_id < r.next_id := hm.2
        omega
      split
      · exact update_task_desc_phase_inv _ _ _ _ h hid
      · split
        · exact h
        · split
          · exact update_task_desc_phase_inv _ _ _ _ (writeThrough_inv _ _ h hid) hid
          · exact update_task_desc_phase_inv _ _ _ _ h hid

theorem delete_task_inv (r : TaskRepository) (task_id : Nat) (h : RepoInv r) :
    RepoInv (TaskService.delete_task r task_id).1 := by
  unfold TaskService.delete_task TaskRepository.delete_task
  split
  · exact h
  · split
    · exact h
    · split
      · constructor
        · intro p hp
          exact h.1 p ((dictErase_sublist task_id r.tasks).subset hp)
        · exact List.Nodup.sublist ((dictErase_sublist task_id r.tasks).map Prod.fst) h.2
      · exact h

theorem mark_complete_inv (r : TaskRepository) (task_id : Nat) (h : RepoInv r) :
    RepoInv (TaskService.mark_complete r task_id).1 := by
  unfold TaskService.mark_complete
  split
  · exact h
  · split
    · exact h
    · rename_i task heq
      have hm := h.1 _ (dictGet_mem _ _ _ heq)
      split
      · exact h
      · apply writeThrough_inv _ _ h
        show task.id < r.next_id
        have h1 : task.id = task_id := hm.1
        have h2 : task_id < r.next_id := hm.2
        omega

theorem mark_incomplete_inv (r : TaskRepository) (task_id : Nat) (h : RepoInv r) :
    RepoInv (TaskService.mark_incomplete r task_id).1 := by
  unfold TaskService.mark_incomplete
  split
  · exact h
  · split
    · exact h
    · rename_i task heq
      have hm := h.1 _ (dictGet_mem _ _ _ heq)
      split
      · exact h
      · apply writeThrough_inv _ _ h
        show task.id < r.next_id
        have h1 : task.id = task_id := hm.1
        have h2 : task_id < r.next_id := hm.2
        omega

theorem applyOp_inv (r : TaskRepository) (op : Op) (h : RepoInv r) :
    RepoInv (applyOp r op) := by
  cases op with
  | add t d now => exact add_task_inv r t d now h
  | update task_id nt nd => exact update_task_inv r task_id nt nd h
  | delete task_id => exact delete_task_inv r task_id h
  | markComplete task_id => exact mark_complete_inv r task_id h
  | markIncomplete task_id => exact mark_incomplete_inv r task_id h
  | get task_id => exact h
  | listAll => exact h
  | statistics => exact h

theorem runOps_inv (r : TaskRepository) (ops : List Op) (h : RepoInv r) :
    RepoInv (runOps r ops) := by
  induction ops generalizing r with
  | nil => exact h
  | cons op rest ih =>
    simpa [runOps] using ih (applyOp r op) (applyOp_inv r op h)

theorem reachable_inv (r : TaskRepository) (h : Reachable r) : RepoInv r := by
  obtain ⟨ops, hops⟩ := h
  rw [hops]
  exact runOps_inv _ _ repoInv_empty

/-! Claim theorems. -/

/-- C5: in every reachable store state, `get_statistics` returns a triple
(total, completed, remaining) with completed + remaining = total, total the
length of the full listing, and completed the number of listed tasks whose
status is Complete. -/
theorem C5_statistics_consistent (r : TaskRepository) (h : Reachable r) :
    (TaskService.get_statistics r).2.1 + (TaskService.get_statistics r).2.2
        = (TaskService.get_statistics r).1 ∧
    (TaskService.get_statistics r).1 = (TaskService.get_all_tasks r).length ∧
    (TaskService.get_statistics r).2.1
        = ((TaskService.get_all_tasks r).filter (fun t => t.is_complete)).length := by
  refine ⟨?_, rfl, ?_⟩
  · have hle : (TaskService.get_all_tasks r).countP (fun t => t.is_complete)
        ≤ (TaskService.get_all_tasks r).length :=
      List.countP_le_length (fun t : Task => t.is_complete)
    show (TaskService.get_all_tasks r).countP (fun t => t.is_complete) +
        ((TaskService.get_all_tasks r).length -
          (TaskService.get_all_tasks r).countP (fun t => t.is_complete)) =
        (TaskService.get_all_tasks r).length
    omega
  · show (TaskService.get_all_tasks r).countP (fun t => t.is_complete)
        = ((TaskService.get_all_tasks r).filter (fun t => t.is_complete)).length
    exact List.countP_eq_length_filter _ _

/-- Witness for C5 at the empty store. -/
theorem C5_statistics_consistent_witness :
    (TaskService.get_statistics TaskRepository.empty).2.1 +
        (TaskService.get_statistics TaskRepository.empty).2.2
      = (TaskService.get_statistics TaskRepository.empty).1 ∧
    (TaskService.get_statistics TaskRepository.empty).1
      = (TaskService.get_all_tasks TaskRepository.empty).length ∧
    (TaskService.get_statistics TaskRepository.empty).2.1
      = ((TaskService.get_all_tasks TaskRepository.empty).filter
          (fun t => t.is_complete)).length :=
  C5_statistics_consistent TaskRepository.empty ⟨[], rfl⟩

/-- C8: `validate_title` fails with a ValidationError exactly when the input
strips to the empty string (so when it is empty or whitespace-only) or its
trimmed length exceeds 200; otherwise it returns the trimmed text, so a
trimmed length of exactly 200 is accepted. -/
theorem C8_validate_title_spec (title : String) :
    ((∃ m, TaskService.validate_title title = Except.error (AppError.validation m)) ↔
      pyStrip title = "" ∨ 200 < (pyStrip title).length) ∧
    (pyStrip title ≠ "" → (pyStrip title).length ≤ 200 →
      TaskService.validate_title title = Except.ok (pyStrip title)) := by
  unfold TaskService.validate_title
  by_cases h1 : (title.isEmpty || (pyStrip title).isEmpty) = true
  · rw [if_pos h1]
    have hstrip : pyStrip title = "" := by
      have h1' : title.isEmpty = true ∨ (pyStrip title).isEmpty = true := by
        simpa using h1
      rcases h1' with he | he
      · rw [(String.isEmpty_iff title).mp he]
        rfl
      · exact (String.isEmpty_iff _).mp he
    constructor
    · constructor
      · intro _
        exact Or.inl hstrip
      · intro _
        exact ⟨_, rfl⟩
    · intro hne _
      exact absurd hstrip hne
  · rw [if_neg h1]
    have hne : pyStrip title ≠ "" := by
      intro hcontra
      apply h1
      have he : (pyStrip title).isEmpty = true := (String.isEmpty_iff _).mpr hcontra
      simp [he]
    by_cases h2 : 200 < (pyStrip title).length
    · rw [if_pos h2]
      constructor
      · constructor
        · intro _
          exact Or.inr h2
        · intro _
          exact ⟨_, rfl⟩
      · intro _ hle
        omega
    · rw [if_neg h2]
      constructor
      · constructor
        · intro hm
          obtain ⟨m, hm⟩ := hm
          simp at hm
        · intro hd
          rcases hd with hd | hd
          · exact absurd hd hne
          · exact absurd hd h2
      · intro _ _
        rfl

/-- Witness for C8 at a plain short title. -/
theorem C8_validate_title_spec_witness :
    TaskService.validate_title "hello" = Except.ok (pyStrip "hello") :=
  (C8_validate_title_spec "hello").2 (by decide) (by decide)

/-- Results of a run of `add` calls from a store with counter `n` are, when
all successful, exactly the tasks with ids n, n+1, n+2, ... -/
theorem runAdds_ids (inputs : List (String × String × Nat)) (r : TaskRepository)
    (tasks : List Task)
    (h : (runAdds r inputs).2 = tasks.map Except.ok) :
    tasks.map Task.id = List.range' r.next_id tasks.length := by
  induction inputs generalizing r tasks with
  | nil =>
    have ht : tasks = [] := by
      cases tasks with
      | nil => rfl
      | cons t ts => simp [runAdds] at h
    subst ht
    rfl
  | cons input rest ih =>
    cases tasks with
    | nil => simp [runAdds] at h
    | cons t ts =>
      have hcons : (TaskService.add_task r input.1 input.2.1 input.2.2).2 = Except.ok t ∧
          (runAdds (TaskService.add_task r input.1 input.2.1 input.2.2).1 rest).2
            = ts.map Except.ok := by
        simpa [runAdds] using h
      obtain ⟨h1, h2⟩ := hcons
      obtain ⟨hid, hnext⟩ := add_task_ok _ _ _ _ _ h1
      have ihr := ih _ _ h2
      rw [hnext] at ihr
      rw [List.map_cons, List.length_cons, List.range'_succ, hid, ihr]

/-- C3: on a fresh store, a sequence of add calls that all succeed returns
tasks whose ids are exactly 1, 2, 3, ... (strictly increasing by 1 from 1). -/
theorem C3_sequential_ids (inputs : List (String × String × Nat)) (tasks : List Task)
    (h : (runAdds TaskRepository.empty inputs).2 = tasks.map Except.ok) :
    tasks.map Task.id = List.range' 1 tasks.length :=
  runAdds_ids inputs TaskRepository.empty tasks h

/-- Witness for C3: two adds on a fresh store get ids 1 and 2. -/
theorem C3_sequential_ids_witness :
    ([{ id := 1, title := "a", description := "", status := TaskStatus.incomplete,
        created_at := 0 },
      { id := 2, title := "b", description := "", status := TaskStatus.incomplete,
        created_at := 0 }] : List Task).map Task.id = List.range' 1 2 :=
  C3_sequential_ids [("a", "", 0), ("b", "", 0)]
    [{ id := 1, title := "a", description := "", status := TaskStatus.incomplete,
       created_at := 0 },
     { id := 2, title := "b", description := "", status := TaskStatus.incomplete,
       created_at := 0 }] (by decide)

/-- C2: the counter never decreases under any service operation, a
successful add leaves the counter strictly above the id it just issued, and
therefore an id issued by an add is never issued by any later add, whatever
operations (including deletes of that task) happen in between. -/
theorem C2_ids_never_reissued :
    (∀ (r : TaskRepository) (op : Op), r.next_id ≤ (applyOp r op).next_id) ∧
    (∀ (r : TaskRepository) (t d : String) (now : Nat) (task : Task),
      (TaskService.add_task r t d now).2 = Except.ok task →
      task.id < (TaskService.add_task r t d now).1.next_id) ∧
    (∀ (r : TaskRepository) (t d : String) (now : Nat) (task : Task)
       (ops : List Op) (t2 d2 : String) (now2 : Nat) (task2 : Task),
      (TaskService.add_task r t d now).2 = Except.ok task →
      (TaskService.add_task (runOps (TaskService.add_task r t d now).1 ops)
          t2 d2 now2).2 = Except.ok task2 →
      task2.id ≠ task.id) := by
  refine ⟨applyOp_next_id_mono, ?_, ?_⟩
  · intro r t d now task h
    obtain ⟨hid, hnext⟩ := add_task_ok r t d now task h
    omega
  · intro r t d now task ops t2 d2 now2 task2 h1 h2
    obtain ⟨hid1, hnext1⟩ := add_task_ok r t d now task h1
    obtain ⟨hid2, _⟩ := add_task_ok _ t2 d2 now2 task2 h2
    have hmono := runOps_next_id_mono (TaskService.add_task r t d now).1 ops
    omega

/-- Witness for C2: add, delete the task, add again; the second id is 2, not
a reuse of 1. -/
theorem C2_ids_never_reissued_witness :
    (TaskService.add_task TaskRepository.empty "a" "" 0).2 = Except.ok
      { id := 1, title := "a", description := "", status := TaskStatus.incomplete,
        created_at := 0 } ∧
    (TaskService.add_task (runOps (TaskService.add_task TaskRepository.empty "a" "" 0).1
        [Op.delete 1]) "b" "" 0).2 = Except.ok
      { id := 2, title := "b", description := "", status := TaskStatus.incomplete,
        created_at := 0 } ∧
    ({ id := 2, title := "b", description := "", status := TaskStatus.incomplete,
       created_at := 0 } : Task).id ≠
      ({ id := 1, title := "a", description := "", status := TaskStatus.incomplete,
         created_at := 0 } : Task).id :=
  ⟨by decide, by decide,
    C2_ids_never_reissued.2.2 TaskRepository.empty "a" "" 0
      { id := 1, title := "a", description := "", status := TaskStatus.incomplete,
        created_at := 0 }
      [Op.delete 1] "b" "" 0
      { id := 2, title := "b", description := "", status := TaskStatus.incomplete,
        created_at := 0 }
      (by decide) (by decide)⟩

/-- C7: in every reachable state, the full listing is exactly the stored
tasks in strictly ascending id order, and the empty store lists as the empty
collection. -/
theorem C7_list_all_sorted (r : TaskRepository) (h : Reachable r) :
    (TaskService.get_all_tasks r).Pairwise (fun a b => a.id < b.id) ∧
    (TaskService.get_all_tasks r).Perm (r.tasks.map Prod.snd) ∧
    (r.tasks = [] → TaskService.get_all_tasks r = []) := by
  have hinv := reachable_inv r h
  have hperm : (TaskService.get_all_tasks r).Perm (r.tasks.map Prod.snd) :=
    List.mergeSort_perm _ _
  refine ⟨?_, hperm, ?_⟩
  · have hs : (TaskService.get_all_tasks r).Pairwise
        (fun a b : Task => decide (a.id ≤ b.id) = true) := by
      apply List.sorted_mergeSort
      · intro a b c hab hbc
        simp only [decide_eq_true_eq] at hab hbc ⊢
        omega
      · intro a b
        rcases Nat.le_total a.id b.id with hle | hle <;> simp [hle]
    have hle : (TaskService.get_all_tasks r).Pairwise (fun a b => a.id ≤ b.id) :=
      hs.imp (fun hab => by simpa using hab)
    have hids : (r.tasks.map (fun p => p.2.id)).Nodup := by
      have hcongr : r.tasks.map (fun p => p.2.id) = r.tasks.map Prod.fst :=
        List.map_congr_left (fun p hp => (hinv.1 p hp).1)
      rw [hcongr]
      exact hinv.2
    have hnodup : ((TaskService.get_all_tasks r).map Task.id).Nodup := by
      have h2 : ((r.tasks.map Prod.snd).map Task.id).Nodup := by
        rw [List.map_map]
        exact hids
      exact (hperm.map Task.id).symm.nodup h2
    have hne : (TaskService.get_all_tasks r).Pairwise (fun a b => a.id ≠ b.id) :=
      List.pairwise_map.mp hnodup
    exact (hle.and hne).imp (fun hab => lt_of_le_of_ne hab.1 hab.2)
  · intro hempty
    simp [TaskService.get_all_tasks, TaskRepository.get_all_tasks, hempty]

/-- Witness for C7 after one add. -/
theorem C7_list_all_sorted_witness :
    (TaskService.get_all_tasks (runOps TaskRepository.empty [Op.add "a" "" 0])).Pairwise
      (fun a b => a.id < b.id) ∧
    (TaskService.get_all_tasks (runOps TaskRepository.empty [Op.add "a" "" 0])).Perm
      ((runOps TaskRepository.empty [Op.add "a" "" 0]).tasks.map Prod.snd) ∧
    ((runOps TaskRepository.empty [Op.add "a" "" 0]).tasks = [] →
      TaskService.get_all_tasks (runOps TaskRepository.empty [Op.add "a" "" 0]) = []) :=
  C7_list_all_sorted (runOps TaskRepository.empty [Op.add "a" "" 0])
    ⟨[Op.add "a" "" 0], rfl⟩

/-! Evaluation lemmas for service operations on a present task. -/

theorem task_exists_of_get (r : TaskRepository) (task_id : Nat) (task : Task)
    (hget : r.get_task task_id = some task) : r.task_exists task_id = true := by
  have h2 : dictGet task_id r.tasks = some task := hget
  simp [TaskRepository.task_exists, h2]

theorem get_task_writeThrough (r : TaskRepository) (t : Task) (task_id : Nat) :
    (r.writeThrough t).get_task task_id =
      if t.id = task_id then some t else r.get_task task_id := by
  unfold TaskRepository.writeThrough TaskRepository.get_task
  by_cases h : t.id = task_id
  · rw [if_pos h, ← h, dictGet_dictInsert_self]
  · rw [if_neg h, dictGet_dictInsert_ne _ _ _ _ h]

theorem mark_complete_eval (r : TaskRepository) (task_id : Nat) (task : Task)
    (hget : r.get_task task_id = some task) :
    TaskService.mark_complete r task_id =
      if task.is_complete
      then (r, Except.error (AppError.validation "Task is already complete"))
      else (r.writeThrough task.mark_complete, Except.ok task.mark_complete) := by
  simp [TaskService.mark_complete, TaskService.validate_task_id,
    task_exists_of_get r task_id task hget, hget]

theorem mark_incomplete_eval (r : TaskRepository) (task_id : Nat) (task : Task)
    (hget : r.get_task task_id = some task) :
    TaskService.mark_incomplete r task_id =
      if !task.is_complete
      then (r, Except.error (AppError.validation "Task is already incomplete"))
      else (r.writeThrough task.mark_incomplete, Except.ok task.mark_incomplete) := by
  simp [TaskService.mark_incomplete, TaskService.validate_task_id,
    task_exists_of_get r task_id task hget, hget]

theorem get_task_eval (r : TaskRepository) (task_id : Nat) (task : Task)
    (hget : r.get_task task_id = some task) :
    TaskService.get_task r task_id = (r, Except.ok task) := by
  simp [TaskService.get_task, TaskService.validate_task_id,
    task_exists_of_get r task_id task hget, hget]

/-- C4: no-op status transitions are errors: marking an already-complete task
complete fails with ValidationError (so two consecutive mark_complete calls
fail the second), symmetrically for mark_incomplete, and the non-error call
transitions the status and returns the task. -/
theorem C4_noop_transition_rejected (r : TaskRepository) (task_id : Nat) (task : Task)
    (hget : r.get_task task_id = some task) (hid : task.id = task_id) :
    (task.status = TaskStatus.complete →
      TaskService.mark_complete r task_id
        = (r, Except.error (AppError.validation "Task is already complete"))) ∧
    (task.status = TaskStatus.incomplete →
      TaskService.mark_incomplete r task_id
        = (r, Except.error (AppError.validation "Task is already incomplete"))) ∧
    (task.status = TaskStatus.incomplete →
      (TaskService.mark_complete r task_id).2 = Except.ok task.mark_complete) ∧
    (task.status = TaskStatus.complete →
      (TaskService.mark_incomplete r task_id).2 = Except.ok task.mark_incomplete) ∧
    (task.status = TaskStatus.incomplete →
      (TaskService.mark_complete (TaskService.mark_complete r task_id).1 task_id).2
        = Except.error (AppError.validation "Task is already complete")) := by
  subst hid
  have hevc := mark_complete_eval r task.id task hget
  have hevi := mark_incomplete_eval r task.id task hget
  refine ⟨?_, ?_, ?_, ?_, ?_⟩
  · intro hc
    have hb : task.is_complete = true := by simp [Task.is_complete, hc]
    rw [hevc, if_pos hb]
  · intro hc
    have hb : task.is_complete = false := by simp [Task.is_complete, hc]
    rw [hevi, if_pos (by simp [hb])]
  · intro hc
    have hb : task.is_complete = false := by simp [Task.is_complete, hc]
    rw [hevc, if_neg (by simp [hb])]
  · intro hc
    have hb : task.is_complete = true := by simp [Task.is_complete, hc]
    rw [hevi, if_neg (by simp [hb])]
  · intro hc
    have hb : task.is_complete = false := by simp [Task.is_complete, hc]
    have hs1 : (TaskService.mark_complete r task.id).1
        = r.writeThrough task.mark_complete := by
      rw [hevc, if_neg (by simp [hb])]
    have hget2 : (r.writeThrough task.mark_complete).get_task task.id
        = some task.mark_complete := by
      rw [get_task_writeThrough,
        if_pos (show task.mark_complete.id = task.id from rfl)]
    have hev2 := mark_complete_eval (r.writeThrough task.mark_complete) task.id
      task.mark_complete hget2
    rw [hs1, hev2, if_pos (show task.mark_complete.is_complete = true from rfl)]

/-- Witness for C4: two consecutive mark_complete calls on a fresh incomplete
task; the second fails. -/
theorem C4_noop_transition_rejected_witness :
    (TaskService.mark_complete
      (TaskService.mark_complete
        { tasks := [(1, { id := 1, title := "t", description := "",
                          status := TaskStatus.incomplete, created_at := 0 })],
          next_id := 2 } 1).1 1).2
      = Except.error (AppError.validation "Task is already complete") :=
  (C4_noop_transition_rejected
    { tasks := [(1, { id := 1, title := "t", description := "",
                      status := TaskStatus.incomplete, created_at := 0 })],
      next_id := 2 }
    1
    { id := 1, title := "t", description := "", status := TaskStatus.incomplete,
      created_at := 0 }
    (by decide) (by decide)).2.2.2.2 (by decide)

/-- C6: update with both provided fields validating to the task's current
values returns the stored task with changed = false and leaves the store
entirely unchanged. -/
theorem C6_update_no_change (r : TaskRepository) (task_id : Nat) (task : Task)
    (t d : String)
    (hget : r.get_task task_id = some task)
    (ht : TaskService.validate_title t = Except.ok task.title)
    (hd : TaskService.validate_description d = Except.ok task.description) :
    TaskService.update_task r task_id (some t) (some d)
      = (r, Except.ok (task, false)) := by
  have hex := task_exists_of_get r task_id task hget
  simp [TaskService.update_task, TaskService.validate_task_id, hex, hget, ht, hd,
    TaskService.update_task_desc_phase]

/-- Witness for C6: updating with the current title and description changes
nothing. -/
theorem C6_update_no_change_witness :
    TaskService.update_task
      { tasks := [(1, { id := 1, title := "Buy", description := "",
                        status := TaskStatus.incomplete, created_at := 0 })],
        next_id := 2 }
      1 (some "Buy") (some "")
      = ({ tasks := [(1, { id := 1, title := "Buy", description := "",
                           status := TaskStatus.incomplete, created_at := 0 })],
           next_id := 2 },
         Except.ok ({ id := 1, title := "Buy", description := "",
                      status := TaskStatus.incomplete, created_at := 0 }, false)) :=
  C6_update_no_change
    { tasks := [(1, { id := 1, title := "Buy", description := "",
                      status := TaskStatus.incomplete, created_at := 0 })],
      next_id := 2 }
    1
    { id := 1, title := "Buy", description := "", status := TaskStatus.incomplete,
      created_at := 0 }
    "Buy" "" (by decide) (by decide) (by decide)

/-- C9: a successful status change persists in the store: after
mark_complete succeeds, a subsequent service get returns the task with
status Complete, symmetrically for mark_incomplete.  The embedding realises
the Python aliasing (the service mutates the very object the store holds)
by writing the mutated task back under its id. -/
theorem C9_status_change_persists (r : TaskRepository) (task_id : Nat) (task : Task)
    (hget : r.get_task task_id = some task) (hid : task.id = task_id) :
    (task.status = TaskStatus.incomplete →
      (TaskService.get_task (TaskService.mark_complete r task_id).1 task_id).2
        = Except.ok task.mark_complete) ∧
    (task.status = TaskStatus.complete →
      (TaskService.get_task (TaskService.mark_incomplete r task_id).1 task_id).2
        = Except.ok task.mark_incomplete) := by
  subst hid
  have hevc := mark_complete_eval r task.id task hget
  have hevi := mark_incomplete_eval r task.id task hget
  constructor
  · intro hc
    have hb : task.is_complete = false := by simp [Task.is_complete, hc]
    have hs1 : (TaskService.mark_complete r task.id).1
        = r.writeThrough task.mark_complete := by
      rw [hevc, if_neg (by simp [hb])]
    have hget2 : (r.writeThrough task.mark_complete).get_task task.id
        = some task.mark_complete := by
      rw [get_task_writeThrough,
        if_pos (show task.mark_complete.id = task.id from rfl)]
    rw [hs1, get_task_eval _ _ _ hget2]
  · intro hc
    have hb : task.is_complete = true := by simp [Task.is_complete, hc]
    have hs1 : (TaskService.mark_incomplete r task.id).1
        = r.writeThrough task.mark_incomplete := by
      rw [hevi, if_neg (by simp [hb])]
    have hget2 : (r.writeThrough task.mark_incomplete).get_task task.id
        = some task.mark_incomplete := by
      rw [get_task_writeThrough,
        if_pos (show task.mark_incomplete.id = task.id from rfl)]
    rw [hs1, get_task_eval _ _ _ hget2]

/-- Witness for C9: after mark_complete on task 1, get 1 sees the Complete
status. -/
theorem C9_status_change_persists_witness :
    (TaskService.get_task
      (TaskService.mark_complete
        { tasks := [(1, { id := 1, title := "w", description := "",
                          status := TaskStatus.incomplete, created_at := 0 })],
          next_id := 2 } 1).1 1).2
      = Except.ok ({ id := 1, title := "w", description := "",
                     status := TaskStatus.incomplete, created_at := 0 } : Task).mark_complete :=
  (C9_status_change_persists
    { tasks := [(1, { id := 1, title := "w", description := "",
                      status := TaskStatus.incomplete, created_at := 0 })],
      next_id := 2 }
    1
    { id := 1, title := "w", description := "", status := TaskStatus.incomplete,
      created_at := 0 }
    (by decide) (by decide)).1 (by decide)

/-! Identity fields survive every operation. -/

theorem update_task_desc_phase_get_fields (rd : TaskRepository) (task : Task)
    (b : Bool) (nd : Option String) (task_id : Nat) (t2 : Task)
    (hg0 : rd.get_task task.id = some task)
    (hafter : (TaskService.update_task_desc_phase rd task b nd).1.get_task task_id
      = some t2) :
    ∃ t1, rd.get_task task_id = some t1 ∧ t2.id = t1.id ∧
      t2.created_at = t1.created_at := by
  unfold TaskService.update_task_desc_phase at hafter
  split at hafter
  · exact ⟨t2, hafter, rfl, rfl⟩
  · split at hafter
    · exact ⟨t2, hafter, rfl, rfl⟩
    · rename_i vd heqd
      split at hafter
      · have hafter2 : (rd.writeThrough (task.update_description vd)).get_task task_id
            = some t2 := hafter
        rw [get_task_writeThrough] at hafter2
        split at hafter2
        · rename_i hidm
          have ht2 := Option.some.inj hafter2
          refine ⟨task, ?_, ?_, ?_⟩
          · have hk : task.id = task_id := hidm
            rw [← hk]
            exact hg0
          · rw [← ht2]
            rfl
          · rw [← ht2]
            rfl
        · exact ⟨t2, hafter2, rfl, rfl⟩
      · exact ⟨t2, hafter, rfl, rfl⟩

theorem applyOp_get_fields (r : TaskRepository) (op : Op) (task_id : Nat)
    (hinv : RepoInv r) (hlt : task_id < r.next_id) (t2 : Task)
    (hafter : (applyOp r op).get_task task_id = some t2) :
    ∃ t1, r.get_task task_id = some t1 ∧ t2.id = t1.id ∧
      t2.created_at = t1.created_at := by
  cases op with
  | get i => exact ⟨t2, hafter, rfl, rfl⟩
  | listAll => exact ⟨t2, hafter, rfl, rfl⟩
  | statistics => exact ⟨t2, hafter, rfl, rfl⟩
  | add t d now =>
    simp only [applyOp] at hafter
    unfold TaskService.add_task at hafter
    split at hafter
    · exact ⟨t2, hafter, rfl, rfl⟩
    · split at hafter
      · exact ⟨t2, hafter, rfl, rfl⟩
      · simp [TaskRepository.add_task, TaskRepository.get_task,
          TaskRepository.get_next_id] at hafter
        rw [dictGet_dictInsert_ne _ _ _ _ (Nat.ne_of_lt hlt).symm] at hafter
        exact ⟨t2, hafter, rfl, rfl⟩
  | delete task_id0 =>
    simp only [applyOp] at hafter
    unfold TaskService.delete_task TaskRepository.delete_task at hafter
    split at hafter
    · exact ⟨t2, hafter, rfl, rfl⟩
    · split at hafter
      · exact ⟨t2, hafter, rfl, rfl⟩
      · split at hafter
        · have hafter2 : dictGet task_id (dictErase task_id0 r.tasks) = some t2 :=
            hafter
          by_cases hk : task_id0 = task_id
          · subst hk
            rw [dictGet_dictErase_self _ _ hinv.2] at hafter2
            cases hafter2
          · rw [dictGet_dictErase_ne _ _ _ hk] at hafter2
            exact ⟨t2, hafter2, rfl, rfl⟩
        · exact ⟨t2, hafter, rfl, rfl⟩
  | markComplete task_id0 =>
    simp only [applyOp] at hafter
    unfold TaskService.mark_complete at hafter
    split at hafter
    · exact ⟨t2, hafter, rfl, rfl⟩
    · split at hafter
      · exact ⟨t2, hafter, rfl, rfl⟩
      · rename_i task0 heq0
        split at hafter
        · exact ⟨t2, hafter, rfl, rfl⟩
        · have hafter2 : (r.writeThrough task0.mark_complete).get_task task_id
              = some t2 := hafter
          rw [get_task_writeThrough] at hafter2
          split at hafter2
          · rename_i hidm
            have ht2 := Option.some.inj hafter2
            refine ⟨task0, ?_, ?_, ?_⟩
            · have hk : task0.id = task_id := hidm
              have hkey := hinv.1 _ (dictGet_mem _ _ _ heq0)
              have hk0 : task0.id = task_id0 := hkey.1
              rw [← hk, hk0]
              exact heq0
            · rw [← ht2]
              rfl
            · rw [← ht2]
              rfl
          · exact ⟨t2, hafter2, rfl, rfl⟩
  | markIncomplete task_id0 =>
    simp only [applyOp] at hafter
    unfold TaskService.mark_incomplete at hafter
    split at hafter
    · exact ⟨t2, hafter, rfl, rfl⟩
    · split at hafter
      · exact ⟨t2, hafter, rfl, rfl⟩
      · rename_i task0 heq0
        split at hafter
        · exact ⟨t2, hafter, rfl, rfl⟩
        · have hafter2 : (r.writeThrough task0.mark_incomplete).get_task task_id
              = some t2 := hafter
          rw [get_task_writeThrough] at hafter2
          split at hafter2
          · rename_i hidm
            have ht2 := Option.some.inj hafter2
            refine ⟨task0, ?_, ?_, ?_⟩
            · have hk : task0.id = task_id := hidm
              have hkey := hinv.1 _ (dictGet_mem _ _ _ heq0)
              have hk0 : task0.id = task_id0 := hkey.1
              rw [← hk, hk0]
              exact heq0
            · rw [← ht2]
              rfl
            · rw [← ht2]
              rfl
          · exact ⟨t2, hafter2, rfl, rfl⟩
  | update task_id0 nt ndesc =>
    simp only [applyOp] at hafter
    unfold TaskService.update_task at hafter
    split at hafter
    · exact ⟨t2, hafter, rfl, rfl⟩
    · split at hafter
      · exact ⟨t2, hafter, rfl, rfl⟩
      · rename_i task0 heq0
        have hkey := hinv.1 _ (dictGet_mem _ _ _ heq0)
        have hk0 : task0.id = task_id0 := hkey.1
        have hg0 : r.get_task task0.id = some task0 := by
          rw [hk0]
          exact heq0
        split at hafter
        · exact update_task_desc_phase_get_fields r task0 false ndesc task_id t2
            hg0 hafter
        · split at hafter
          · exact ⟨t2, hafter, rfl, rfl⟩
          · rename_i vt heqt
            split at hafter
            · have hg1 : (r.writeThrough (task0.update_title vt)).get_task
                  (task0.update_title vt).id = some (task0.update_title vt) := by
                rw [get_task_writeThrough,
                  if_pos (show (task0.update_title vt).id = (task0.update_title vt).id
                    from rfl)]
              obtain ⟨tm, hm, hidm, hcam⟩ := update_task_desc_phase_get_fields
                (r.writeThrough (task0.update_title vt)) (task0.update_title vt)
                true ndesc task_id t2 hg1 hafter
              rw [get_task_writeThrough] at hm
              split at hm
              · rename_i hidk
                have htm := Option.some.inj hm
                refine ⟨task0, ?_, ?_, ?_⟩
                · have hk : task0.id = task_id := hidk
                  rw [← hk]
                  exact hg0
                · rw [hidm, ← htm]
                  rfl
                · rw [hcam, ← htm]
                  rfl
              · exact ⟨tm, hm, hidm, hcam⟩
            · exact update_task_desc_phase_get_fields r task0 false ndesc task_id t2
                hg0 hafter

theorem runOps_get_fields (r : TaskRepository) (ops : List Op) (task_id : Nat)
    (hinv : RepoInv r) (hlt : task_id < r.next_id) (t2 : Task)
    (hafter : (runOps r ops).get_task task_id = some t2) :
    ∃ t1, r.get_task task_id = some t1 ∧ t2.id = t1.id ∧
      t2.created_at = t1.created_at := by
  induction ops generalizing r with
  | nil => exact ⟨t2, hafter, rfl, rfl⟩
  | cons op rest ih =>
    obtain ⟨tm, hm, hid, hca⟩ := ih (applyOp r op) (applyOp_inv _ _ hinv)
      (Nat.lt_of_lt_of_le hlt (applyOp_next_id_mono r op))
      (by simpa [runOps] using hafter)
    obtain ⟨t1, h1, hid1, hca1⟩ := applyOp_get_fields r op task_id hinv hlt tm hm
    exact ⟨t1, h1, by rw [hid, hid1], by rw [hca, hca1]⟩

/-- C10: task identity fields are immutable: across any sequence of service
operations from a state satisfying the store invariant, whenever a task is
retrievable under an id before and after the sequence, its id and creation
timestamp are unchanged — no service or model operation writes to either
field. -/
theorem C10_id_created_at_immutable (r : TaskRepository) (ops : List Op)
    (hr : RepoInv r) (task_id : Nat) (t t2 : Task)
    (hbefore : r.get_task task_id = some t)
    (hafter : (runOps r ops).get_task task_id = some t2) :
    t2.id = t.id ∧ t2.created_at = t.created_at := by
  have hlt : task_id < r.next_id := (hr.1 _ (dictGet_mem _ _ _ hbefore)).2
  obtain ⟨t1, h1, hid, hca⟩ := runOps_get_fields r ops task_id hr hlt t2 hafter
  rw [hbefore] at h1
  cases Option.some.inj h1
  exact ⟨hid, hca⟩

/-- Witness for C10: updating title, completing and then updating the
description of task 1 leaves its id and created_at intact. -/
theorem C10_id_created_at_immutable_witness :
    (({ id := 1, title := "n", description := "x",
        status := TaskStatus.complete, created_at := 7 } : Task).id
      = ({ id := 1, title := "o", description := "",
           status := TaskStatus.incomplete, created_at := 7 } : Task).id) ∧
    (({ id := 1, title := "n", description := "x",
        status := TaskStatus.complete, created_at := 7 } : Task).created_at
      = ({ id := 1, title := "o", description := "",
           status := TaskStatus.incomplete, created_at := 7 } : Task).created_at) :=
  C10_id_created_at_immutable
    { tasks := [(1, { id := 1, title := "o", description := "",
                      status := TaskStatus.incomplete, created_at := 7 })],
      next_id := 2 }
    [Op.update 1 (some "n") none, Op.markComplete 1, Op.update 1 none (some "x")]
    ⟨by decide, by decide⟩ 1
    { id := 1, title := "o", description := "", status := TaskStatus.incomplete,
      created_at := 7 }
    { id := 1, title := "n", description := "x", status := TaskStatus.complete,
      created_at := 7 }
    (by decide) (by decide)

/-! Update is not atomic: the title mutation can outlive a description
validation failure. -/

/-- Store holding one task (id 1, title "old") used to exhibit the partial
mutation of `update_task`. -/
def c1Repo : TaskRepository :=
  { tasks := [(1, { id := 1, title := "old", description := "",
                    status := TaskStatus.incomplete, created_at := 0 })],
    next_id := 2 }

/-- A 501-character description, rejected by `validate_description`. -/
def longDesc : String := String.mk (List.replicate 501 'y')

set_option maxRecDepth 8000

/-- C1 counterexample: update(1, "new", 501-char description) raises a
ValidationError for the description, yet the title mutation is already
committed — the stored title changed from "old" to "new", so the update was
not atomic. -/
theorem C1_counterexample :
    (TaskService.update_task c1Repo 1 (some "new") (some longDesc)).2
      = Except.error (AppError.validation "Description exceeds 500 characters") ∧
    (TaskService.update_task c1Repo 1 (some "new") (some longDesc)).1.get_task 1
      = some { id := 1, title := "new", description := "",
               status := TaskStatus.incomplete, created_at := 0 } ∧
    c1Repo.get_task 1
      = some { id := 1, title := "old", description := "",
               status := TaskStatus.incomplete, created_at := 0 } := by
  refine ⟨?_, ?_, ?_⟩ <;> decide

/-- C1 amended: update is atomic only for failures detected before the
title mutation.  If the provided title fails validation, or the title
validates to the current value and the description then fails, the store is
left unchanged; but if a differing valid title was applied and the
description then fails validation, the error is raised with the title
mutation already committed. -/
theorem C1_update_nonatomic (r : TaskRepository) (task_id : Nat) (task : Task)
    (hget : r.get_task task_id = some task) (nt nd : String) :
    (∀ e, TaskService.validate_title nt = Except.error e →
      TaskService.update_task r task_id (some nt) (some nd) = (r, Except.error e)) ∧
    (∀ vt e, TaskService.validate_title nt = Except.ok vt → vt = task.title →
      TaskService.validate_description nd = Except.error e →
      TaskService.update_task r task_id (some nt) (some nd) = (r, Except.error e)) ∧
    (∀ vt e, TaskService.validate_title nt = Except.ok vt → vt ≠ task.title →
      TaskService.validate_description nd = Except.error e →
      TaskService.update_task r task_id (some nt) (some nd)
        = (r.writeThrough (task.update_title vt), Except.error e)) := by
  have hex := task_exists_of_get r task_id task hget
  refine ⟨?_, ?_, ?_⟩
  · intro e he
    simp [TaskService.update_task, TaskService.validate_task_id, hex, hget, he]
  · intro vt e hvt hveq hd
    simp [TaskService.update_task, TaskService.validate_task_id, hex, hget, hvt,
      hveq, TaskService.update_task_desc_phase, hd]
  · intro vt e hvt hvne hd
    simp [TaskService.update_task, TaskService.validate_task_id, hex, hget, hvt,
      hvne, TaskService.update_task_desc_phase, hd]

/-- Witness for the amended C1: the concrete partial mutation from the
counterexample store, derived through the amended theorem. -/
theorem C1_update_nonatomic_witness :
    TaskService.update_task c1Repo 1 (some "new") (some longDesc)
      = (c1Repo.writeThrough
          (({ id := 1, title := "old", description := "",
              status := TaskStatus.incomplete, created_at := 0 } : Task).update_title
            "new"),
         Except.error (AppError.validation "Description exceeds 500 characters")) :=
  (C1_update_nonatomic c1Repo 1
    { id := 1, title := "old", description := "", status := TaskStatus.incomplete,
      created_at := 0 }
    (by decide) "new" longDesc).2.2 "new"
    (AppError.validation "Description exceeds 500 characters")
    (by decide) (by decide) (by decide)

end Todo
